import Mathlib

/-! Portfolio website behaviour layer (`src/portfolio-website/app.js`).

A shallow embedding of the page script: the contact-form validator, the
navigation controller and the project modal, followed by theorems about them.

Modelling conventions.

* A JavaScript string that reaches the script is a Lean `String` (a sequence of
  Unicode scalar values; `FormData` hands out scalar-value strings).  `length`
  counts UTF-16 code units, so it is modelled by `jsLength`, not `String.length`.
* `classList` is a list of class tokens with the `DOMTokenList` operations.
* Offsets (`offsetTop`, `offsetHeight`, `pageYOffset`) are integers, in CSS pixels.
* Elements the script captures in top-level constants (`hamburger`, `navMenu`,
  `modal`, `modalBody`, `successMessage`, `navLinks`, `contactForm`) are fields
  of `Page`.  Elements the script looks up at call time (`getElementById`,
  `querySelectorAll('.error-message')`) live in `Page.document`, the elements of
  the page in document order.
-/

namespace Portfolio

/-! ## Strings -/

/-- ECMAScript `WhiteSpace` and `LineTerminator` code points: the set stripped by
`String.prototype.trim` and matched by `\s` in a regular expression. -/
def isJSWhiteSpace (c : Char) : Bool :=
  let n := c.toNat
  n == 0x09 || n == 0x0A || n == 0x0B || n == 0x0C || n == 0x0D || n == 0x20 ||
  n == 0xA0 || n == 0x1680 || (0x2000 ≤ n && n ≤ 0x200A) || n == 0x2028 ||
  n == 0x2029 || n == 0x202F || n == 0x205F || n == 0x3000 || n == 0xFEFF

/-- Character-level `trim`: white space removed from both ends. -/
def trimChars (s : List Char) : List Char :=
  ((s.dropWhile isJSWhiteSpace).reverse.dropWhile isJSWhiteSpace).reverse

/-- `String.prototype.trim`. -/
def jsTrim (s : String) : String := ⟨trimChars s.data⟩

/-- Number of UTF-16 code units of one scalar value. -/
def utf16Units (c : Char) : Nat := if c.toNat < 0x10000 then 1 else 2

/-- The `length` property of a JavaScript string: its number of UTF-16 code units. -/
def jsLength (s : String) : Nat := (s.data.map utf16Units).sum

/-- Truthiness of an optional string (`undefined` and `""` are falsy). -/
def truthy : Option String → Bool
  | none => false
  | some s => !s.data.isEmpty

/-! ## Regular expressions

A small matcher by derivatives.  `test` on a pattern anchored with `^` and `$`
and carrying no flags succeeds exactly when the whole subject is in the language
of the pattern.  The pattern of `isValidEmail` only uses classes that treat
both halves of a surrogate pair alike, so matching scalar values and matching
code units agree. -/

/-- Regular expressions over characters, with character classes as predicates. -/
inductive Regex where
  | empty : Regex
  | eps : Regex
  | cls (p : Char → Bool) : Regex
  | alt (a b : Regex) : Regex
  | seq (a b : Regex) : Regex
  | star (a : Regex) : Regex

namespace Regex

/-- The quantifier `+`. -/
def plus (r : Regex) : Regex := seq r (star r)

/-- Whether the expression accepts the empty string. -/
def nullable : Regex → Bool
  | empty => false
  | eps => true
  | cls _ => false
  | alt a b => nullable a || nullable b
  | seq a b => nullable a && nullable b
  | star _ => true

/-- Brzozowski derivative with respect to one character. -/
def deriv : Regex → Char → Regex
  | empty, _ => empty
  | eps, _ => empty
  | cls p, c => if p c then eps else empty
  | alt a b, c => alt (deriv a c) (deriv b c)
  | seq a b, c =>
      if nullable a then alt (seq (deriv a c) b) (deriv b c) else seq (deriv a c) b
  | star a, c => seq (deriv a c) (star a)

/-- Whole-subject match. -/
def fullMatch : Regex → List Char → Bool
  | r, [] => nullable r
  | r, c :: cs => fullMatch (deriv r c) cs

/-- `RegExp.prototype.test` for a pattern of the shape `/^r$/`. -/
def test (r : Regex) (s : String) : Bool := fullMatch r s.data

end Regex

/-- The class `[^\s@]`. -/
def notSpaceAt (c : Char) : Bool := !(isJSWhiteSpace c || c == '@')

/-- The pattern `/^[^\s@]+@[^\s@]+\.[^\s@]+$/` (without its anchors). -/
def emailRegex : Regex :=
  .seq (.plus (.cls notSpaceAt))
    (.seq (.cls (· == '@'))
      (.seq (.plus (.cls notSpaceAt))
        (.seq (.cls (· == '.')) (.plus (.cls notSpaceAt)))))

/-- `isValidEmail(email)`. -/
def isValidEmail (email : String) : Bool := emailRegex.test email

end Portfolio

namespace Portfolio

/-! ## Project data -/

/-- One record of the `projects` array. -/
structure Project where
  title : String
  description : String
  technologies : List String
  details : String
  deriving DecidableEq, Repr

/-- The constant `projects`. -/
def projects : List Project := [
  { title := "Personal Portfolio Website",
    description := "A responsive personal portfolio showcasing my projects and skills",
    technologies := ["HTML", "CSS", "JavaScript"],
    details := "Built a modern portfolio website from scratch featuring smooth navigation, interactive elements, and responsive design. Implemented form validation and dynamic content loading." },
  { title := "Blockchain Intrusion Detection System",
    description := "Real-time monitoring system for network security",
    technologies := ["Python", "Flask", "JavaScript", "Security"],
    details := "Implemented a comprehensive security monitoring dashboard with real-time alerts, IP tracking, and audit logging capabilities." },
  { title := "Voice Emergency Response System",
    description := "Multi-language voice-based emergency classification system",
    technologies := ["Python", "AI", "Speech Recognition", "Mobile"],
    details := "Created an intelligent emergency response platform with automatic language detection, speech-to-text conversion, and smart routing to appropriate response teams." }
]

/-! ## The page -/

/-- `classList.contains(token)`. -/
def classContains (cl : List String) (token : String) : Bool := cl.any (· == token)

/-- `classList.add(token)`. -/
def classAdd (cl : List String) (token : String) : List String :=
  if classContains cl token then cl else cl ++ [token]

/-- `classList.remove(token)`. -/
def classRemove (cl : List String) (token : String) : List String :=
  cl.filter (fun t => !(t == token))

/-- `classList.toggle(token)`. -/
def classToggle (cl : List String) (token : String) : List String :=
  if classContains cl token then classRemove cl token else classAdd cl token

/-- An element reachable by a call-time lookup.  `id = ""` stands for an element
without an id; `classList` is consulted for selector matching only. -/
structure Element where
  id : String
  classList : List String
  textContent : String
  offsetTop : Int
  offsetHeight : Int
  deriving DecidableEq, Repr

/-- A member of `navLinks`, the elements selected by `[data-section]`. -/
structure NavLink where
  dataSection : String
  classList : List String
  deriving DecidableEq, Repr

/-- A named control of the contact form. -/
structure FormControl where
  defaultValue : String
  value : String
  deriving DecidableEq, Repr

/-- The controls of `contactForm` that the script reads (`none`: the form has no
entry of that name, so `FormData.get` answers `null`). -/
structure ContactForm where
  name : Option FormControl
  email : Option FormControl
  subject : Option FormControl
  message : Option FormControl
  deriving DecidableEq, Repr

/-- The object logged by `submitForm`. -/
structure Submission where
  name : Option String
  email : Option String
  subject : Option String
  message : Option String
  deriving DecidableEq, Repr

/-- The callbacks the script hands to `setTimeout`. -/
inductive Callback where
  | hideSuccessMessage
  deriving DecidableEq, Repr

/-- A pending `setTimeout`. -/
structure Timer where
  callback : Callback
  delay : Nat
  deriving DecidableEq, Repr

/-- The argument of `window.scrollTo`. -/
structure ScrollToOptions where
  top : Int
  behavior : String
  deriving DecidableEq, Repr

/-- Everything the script reads or writes. -/
structure Page where
  isMenuOpen : Bool
  currentSection : String
  navbar : List String
  hamburger : List String
  navMenu : List String
  navLinks : List NavLink
  contactForm : ContactForm
  modal : List String
  modalBody : String
  successMessage : List String
  bodyOverflow : String
  document : List Element
  pageYOffset : Int
  scrollCalls : List ScrollToOptions
  console : List Submission
  timers : List Timer
  deriving DecidableEq, Repr

/-- `document.getElementById(id)`: the first element in document order carrying
the id (no element is found for the empty id). -/
def getElementById (doc : List Element) (id : String) : Option Element :=
  if id.data.isEmpty then none else doc.find? (fun el => el.id == id)

/-- Assignment `el.textContent = text` for the element `getElementById` returns. -/
def setTextContent : List Element → String → String → List Element
  | [], _, _ => []
  | el :: rest, id, text =>
      if el.id == id then { el with textContent := text } :: rest
      else el :: setTextContent rest id text

/-! ## Navigation controller -/

/-- `toggleMobileMenu()`. -/
def toggleMobileMenu (p : Page) : Page :=
  { p with
    isMenuOpen := !p.isMenuOpen,
    hamburger := classToggle p.hamburger "active",
    navMenu := classToggle p.navMenu "active" }

/-- `scrollToSection(sectionId)`. -/
def scrollToSection (sectionId : String) (p : Page) : Page :=
  match getElementById p.document sectionId with
  | some sectionEl =>
      let offsetTop := sectionEl.offsetTop - 80
      { p with scrollCalls := p.scrollCalls ++ [{ top := offsetTop, behavior := "smooth" }] }
  | none => p

/-- `handleNavClick(e)`; `targetSection` is `e.target.getAttribute('data-section')`. -/
def handleNavClick (targetSection : Option String) (p : Page) : Page :=
  if truthy targetSection then
    let p := scrollToSection (targetSection.getD "") p
    if p.isMenuOpen then toggleMobileMenu p else p
  else p

/-- `handleScroll()`. -/
def handleScroll (p : Page) : Page :=
  let scrollTop := p.pageYOffset
  if scrollTop > 50 then { p with navbar := classAdd p.navbar "scrolled" }
  else { p with navbar := classRemove p.navbar "scrolled" }

/-- `updateActiveNavLink(activeSection)`. -/
def updateActiveNavLink (activeSection : String) (p : Page) : Page :=
  if p.currentSection != activeSection then
    { p with
      currentSection := activeSection,
      navLinks := p.navLinks.map fun link =>
        let cl := classRemove link.classList "active"
        if link.dataSection == activeSection then { link with classList := classAdd cl "active" }
        else { link with classList := cl } }
  else p

/-- The constant `sections` of `updateActiveSection`. -/
def sections : List String := ["about", "projects", "contact"]

/-- `updateActiveSection()`. -/
def updateActiveSection (p : Page) : Page :=
  let scrollTop := p.pageYOffset
  sections.foldl (fun p sectionId =>
    match getElementById p.document sectionId with
    | some sectionEl =>
        let sectionTop := sectionEl.offsetTop - 100
        let sectionBottom := sectionTop + sectionEl.offsetHeight
        if decide (scrollTop ≥ sectionTop) && decide (scrollTop < sectionBottom) then
          updateActiveNavLink sectionId p
        else p
    | none => p) p

/-! ## Form validator -/

/-- `showError(elementId, message)`. -/
def showError (elementId message : String) (p : Page) : Page :=
  match getElementById p.document elementId with
  | some _ => { p with document := setTextContent p.document elementId message }
  | none => p

/-- `clearFormErrors()`. -/
def clearFormErrors (p : Page) : Page :=
  { p with
    document := p.document.map fun el =>
      if classContains el.classList "error-message" then { el with textContent := "" } else el,
    successMessage := classRemove p.successMessage "show" }

/-- `contactForm.reset()`: every control returns to its default value. -/
def ContactForm.reset (f : ContactForm) : ContactForm :=
  let r : FormControl → FormControl := fun c => { c with value := c.defaultValue }
  { name := f.name.map r, email := f.email.map r, subject := f.subject.map r,
    message := f.message.map r }

/-- Running a timer callback. -/
def Callback.run : Callback → Page → Page
  | .hideSuccessMessage, p => { p with successMessage := classRemove p.successMessage "show" }

/-- `submitForm(name, email, subject, message)`. -/
def submitForm (name email subject message : Option String) (p : Page) : Page :=
  { p with
    console := p.console ++ [{ name := name, email := email, subject := subject, message := message }],
    contactForm := p.contactForm.reset,
    successMessage := classAdd p.successMessage "show",
    timers := p.timers ++ [{ callback := .hideSuccessMessage, delay := 5000 }] }

/-- `formData.get(field)?.trim()` for a control of the form. -/
def trimmedValue (c : Option FormControl) : Option String := c.map fun c => jsTrim c.value

/-- `handleFormSubmit(e)`.  The pair threads the page and the local `isValid`. In
the `else if` branches the value is a non-empty string, read with `getD`. -/
def handleFormSubmit (p : Page) : Page :=
  let p := clearFormErrors p
  let name := trimmedValue p.contactForm.name
  let email := trimmedValue p.contactForm.email
  let subject := trimmedValue p.contactForm.subject
  let message := trimmedValue p.contactForm.message
  let s : Page × Bool := (p, true)
  let s := if !truthy name then (showError "name-error" "Name is required" s.1, false) else s
  let s :=
    if !truthy email then (showError "email-error" "Email is required" s.1, false)
    else if !isValidEmail (email.getD "") then
      (showError "email-error" "Please enter a valid email address" s.1, false)
    else s
  let s := if !truthy subject then (showError "subject-error" "Subject is required" s.1, false) else s
  let s :=
    if !truthy message then (showError "message-error" "Message is required" s.1, false)
    else if jsLength (message.getD "") < 10 then
      (showError "message-error" "Message must be at least 10 characters long" s.1, false)
    else s
  if s.2 then submitForm name email subject message s.1 else s.1

/-! ## Modal controller -/

/-- Value of a digit in the given radix, if the character is one. -/
def digitValue (radix : Nat) (c : Char) : Option Nat :=
  let n := c.toNat
  let v : Option Nat :=
    if 48 ≤ n && n ≤ 57 then some (n - 48)
    else if 97 ≤ n && n ≤ 122 then some (n - 97 + 10)
    else if 65 ≤ n && n ≤ 90 then some (n - 65 + 10)
    else none
  v.bind fun d => if d < radix then some d else none

/-- The longest prefix of digits, read in the given radix (`none` if there is no digit). -/
def parseDigits (radix : Nat) : List Char → Option Nat → Option Nat
  | [], acc => acc
  | c :: cs, acc =>
      match digitValue radix c with
      | some d => parseDigits radix cs (some (acc.getD 0 * radix + d))
      | none => acc

/-- `parseInt(string)` with no radix argument; `none` is `NaN`. -/
def parseInt (input : String) : Option Int :=
  let s := input.data.dropWhile isJSWhiteSpace
  let (sign, s) : Int × List Char :=
    match s with
    | '-' :: rest => (-1, rest)
    | '+' :: rest => (1, rest)
    | _ => (1, s)
  let (radix, s) : Nat × List Char :=
    match s with
    | '0' :: 'x' :: rest => (16, rest)
    | '0' :: 'X' :: rest => (16, rest)
    | _ => (10, s)
  (parseDigits radix s none).map fun n => sign * (n : Int)

/-- `ToString` of the result of `getAttribute` (`null` reads "null"). -/
def attributeToString : Option String → String
  | some s => s
  | none => "null"

/-- `projects[projectIndex]` for a number (`none`: `undefined`). -/
def projectAt (projectIndex : Option Int) : Option Project :=
  match projectIndex with
  | some (Int.ofNat n) => projects.get? n
  | _ => none

/-- The markup of one technology tag. -/
def techTag (tech : String) : String := "<span class=\"tech-tag\">" ++ tech ++ "</span>"

/-- The template literal `modalContent`. -/
def modalContent (project : Project) : String :=
  "\n    <h2 class=\"modal-project-title\">" ++ project.title ++ "</h2>\n" ++
  "    <p class=\"modal-project-description\">" ++ project.description ++ "</p>\n" ++
  "    <div class=\"modal-project-details\">\n" ++
  "      <h4>Project Details</h4>\n" ++
  "      <p>" ++ project.details ++ "</p>\n" ++
  "    </div>\n" ++
  "    <div class=\"modal-tech-section\">\n" ++
  "      <h4>Technologies Used</h4>\n" ++
  "      <div class=\"modal-tech-tags\">\n" ++
  "        " ++ String.join (project.technologies.map techTag) ++ "\n" ++
  "      </div>\n" ++
  "    </div>\n" ++
  "  "

/-- `showProjectModal(project)`. -/
def showProjectModal (project : Project) (p : Page) : Page :=
  { p with
    modalBody := modalContent project,
    modal := classAdd p.modal "show",
    bodyOverflow := "hidden" }

/-- `handleProjectClick(e)`; `dataProject` is `e.target.getAttribute('data-project')`. -/
def handleProjectClick (dataProject : Option String) (p : Page) : Page :=
  let projectIndex := parseInt (attributeToString dataProject)
  match projectAt projectIndex with
  | some project => showProjectModal project p
  | none => p

/-- `closeModal()`. -/
def closeModal (p : Page) : Page :=
  { p with modal := classRemove p.modal "show", bodyOverflow := "auto" }

/-- The nodes a click on the modal can have as its target: the overlay itself, the
close control, a node inside the close control, the body slot, or any other node of
the modal content.  The close control is taken to lie inside the modal. -/
inductive Node where
  | modal
  | modalClose
  | insideModalClose (tag : String)
  | modalBody
  | descendant (tag : String)
  deriving DecidableEq, Repr

/-- Whether a click with this target passes through the close control (the target is
the control or lies inside it), so that the listener of the control runs. -/
def Node.reachesModalClose : Node → Bool
  | .modalClose => true
  | .insideModalClose _ => true
  | _ => false

/-- The click listener registered on `modalClose`: `closeModal` itself. -/
def modalCloseClickListener (p : Page) : Page := closeModal p

/-- The click listener registered on `modal`. -/
def modalClickListener (target : Node) (p : Page) : Page :=
  if target = Node.modal then closeModal p else p

/-- A click on a node of the modal: the event bubbles from its target to the overlay,
running the listener of the close control when it passes through the control and then
the listener of `modal`. -/
def clickOnModal (target : Node) (p : Page) : Page :=
  let p := if target.reachesModalClose then modalCloseClickListener p else p
  modalClickListener target p

/-- The `keydown` listener registered on `document`. -/
def keydownListener (key : String) (p : Page) : Page :=
  if key == "Escape" && classContains p.modal "show" then closeModal p else p

end Portfolio

/-! ## Observations used in the statements -/

namespace Portfolio

/-- Text displayed by the element `getElementById` finds for `id` (`none`: no such
element). -/
def textOf (p : Page) (id : String) : Option String :=
  (getElementById p.document id).map fun el => el.textContent

/-- The element with this id exists and is selected by `.error-message`. -/
def isErrorDisplay (p : Page) (id : String) : Bool :=
  match getElementById p.document id with
  | some el => classContains el.classList "error-message"
  | none => false

/-- The four required fields of the contact form. -/
inductive Field where
  | name
  | email
  | subject
  | message
  deriving DecidableEq, Repr

namespace Field

/-- Id of the error display that `handleFormSubmit` uses for the field. -/
def errorId : Field → String
  | name => "name-error"
  | email => "email-error"
  | subject => "subject-error"
  | message => "message-error"

/-- The control of the form that carries the field. -/
def control (f : ContactForm) : Field → Option FormControl
  | name => f.name
  | email => f.email
  | subject => f.subject
  | message => f.message

/-- The text shown for a missing field. -/
def requiredMessage : Field → String
  | name => "Name is required"
  | email => "Email is required"
  | subject => "Subject is required"
  | message => "Message is required"

/-- The text shown for a field that is present but rejected (none for name and subject). -/
def formatMessage : Field → Option String
  | name => none
  | email => some "Please enter a valid email address"
  | subject => none
  | message => some "Message must be at least 10 characters long"

/-- Validity of a trimmed field value: name and subject non-empty, email accepted by
`isValidEmail`, message of at least 10 code units. -/
def validValue : Field → Option String → Bool
  | name, v => truthy v
  | email, v => truthy v && isValidEmail (v.getD "")
  | subject, v => truthy v
  | message, v => truthy v && decide (10 ≤ jsLength (v.getD ""))

/-- Validity of the field in a form. -/
def valid (f : ContactForm) (g : Field) : Bool := validValue g (trimmedValue (control f g))

end Field

/-- The four error displays exist and are among the `.error-message` elements. -/
def ErrorDisplaysPresent (p : Page) : Prop :=
  ∀ g : Field, isErrorDisplay p g.errorId = true

/-- The success indicator is in the shown state. -/
def successShown (p : Page) : Bool := classContains p.successMessage "show"

/-- The modal is in the visible state. -/
def modalShown (p : Page) : Bool := classContains p.modal "show"

/-- Whether `handleFormSubmit` reaches `submitForm` on this page: `submitForm` is the
only writer of the console and logs exactly one entry. -/
def submitInvoked (p : Page) : Bool :=
  decide ((handleFormSubmit p).console.length = p.console.length + 1)

/-- Error text produced by the rule of a field for a trimmed value (`none`: the
rule passes). -/
def rule : Field → Option String → Option String
  | .name, v => if truthy v then none else some "Name is required"
  | .email, v =>
      if truthy v then
        if isValidEmail (v.getD "") then none else some "Please enter a valid email address"
      else some "Email is required"
  | .subject, v => if truthy v then none else some "Subject is required"
  | .message, v =>
      if truthy v then
        if jsLength (v.getD "") < 10 then some "Message must be at least 10 characters long"
        else none
      else some "Message is required"

/-- Outcome of the rule of a field on a form. -/
def ruleOn (f : ContactForm) (g : Field) : Option String := rule g (trimmedValue (g.control f))

/-- Display of a rule outcome. -/
def report (g : Field) (r : Option String) (p : Page) : Page :=
  match r with
  | some m => showError g.errorId m p
  | none => p

/-- The page after the clear and validate steps, before the decision to submit. -/
def validated (p : Page) : Page :=
  let f := p.contactForm
  report .message (ruleOn f .message) (report .subject (ruleOn f .subject)
    (report .email (ruleOn f .email) (report .name (ruleOn f .name) (clearFormErrors p))))

/-- All four rules pass. -/
def allPass (f : ContactForm) : Bool :=
  (ruleOn f .name).isNone && (ruleOn f .email).isNone && (ruleOn f .subject).isNone &&
    (ruleOn f .message).isNone

end Portfolio

/-! ## Observations on navigation and on the modal body -/

namespace Portfolio

/-- Whether the range `[offsetTop - 100, offsetTop - 100 + offsetHeight)` of the section
with this id contains the scroll offset of the page. -/
def sectionContainsOffset (p : Page) (sectionId : String) : Bool :=
  match getElementById p.document sectionId with
  | some el =>
      decide (el.offsetTop - 100 ≤ p.pageYOffset) &&
        decide (p.pageYOffset < el.offsetTop - 100 + el.offsetHeight)
  | none => false

/-- Whether `pat` is a prefix of `s`. -/
def startsWith : List Char → List Char → Bool
  | [], _ => true
  | _ :: _, [] => false
  | a :: pat, b :: s => a == b && startsWith pat s

/-- Whether `pat` occurs in `s`. -/
def occursIn (pat : List Char) : List Char → Bool
  | [] => startsWith pat []
  | c :: s => startsWith pat (c :: s) || occursIn pat s

/-- Whether the markup contains the given piece of markup. -/
def containsMarkup (html piece : String) : Bool := occursIn piece.data html.data

/-- Splits `s` at the first occurrence of `pat`: the text before it and the text
after it. -/
def splitAtFirst (pat : List Char) : List Char → Option (List Char × List Char)
  | [] => if pat.isEmpty then some ([], []) else none
  | c :: s =>
      if startsWith pat (c :: s) then some ([], (c :: s).drop pat.length)
      else (splitAtFirst pat s).map fun r => (c :: r.1, r.2)

/-- The texts of the `tech-tag` spans of a piece of markup, in order. -/
def techTagTextsAux : Nat → List Char → List String
  | 0, _ => []
  | fuel + 1, s =>
      match splitAtFirst "<span class=\"tech-tag\">".data s with
      | none => []
      | some (_, rest) =>
          match splitAtFirst "</span>".data rest with
          | none => []
          | some (text, rest') => ⟨text⟩ :: techTagTextsAux fuel rest'

/-- The texts of the `tech-tag` spans of the markup, in order. -/
def techTagTexts (html : String) : List String := techTagTextsAux html.data.length html.data

end Portfolio

/-! ## Sample pages -/

namespace Portfolio

/-- An error display as the validator expects it. -/
def errorDisplay (id text : String) : Element :=
  { id := id, classList := ["error-message"], textContent := text, offsetTop := 0,
    offsetHeight := 0 }

/-- A page section. -/
def sectionElement (id : String) (offsetTop offsetHeight : Int) : Element :=
  { id := id, classList := [], textContent := "", offsetTop := offsetTop,
    offsetHeight := offsetHeight }

/-- A contact form whose controls have empty defaults and the given values. -/
def formWith (name email subject message : String) : ContactForm :=
  { name := some { defaultValue := "", value := name },
    email := some { defaultValue := "", value := email },
    subject := some { defaultValue := "", value := subject },
    message := some { defaultValue := "", value := message } }

/-- A freshly loaded page with the given form content. -/
def pageWith (form : ContactForm) : Page :=
  { isMenuOpen := false, currentSection := "about", navbar := [], hamburger := [],
    navMenu := [],
    navLinks := [{ dataSection := "about", classList := ["active"] },
                 { dataSection := "projects", classList := [] },
                 { dataSection := "contact", classList := [] }],
    contactForm := form, modal := [], modalBody := "", successMessage := [],
    bodyOverflow := "",
    document := [sectionElement "about" 0 600, sectionElement "projects" 600 600,
                 sectionElement "contact" 1200 600,
                 errorDisplay "name-error" "", errorDisplay "email-error" "",
                 errorDisplay "subject-error" "", errorDisplay "message-error" ""],
    pageYOffset := 0, scrollCalls := [], console := [], timers := [] }

/-- A page whose displays still show the outcome of earlier attempts. -/
def stalePage (form : ContactForm) : Page :=
  { pageWith form with
    successMessage := ["show"],
    document := [errorDisplay "name-error" "Name is required",
                 errorDisplay "email-error" "Please enter a valid email address",
                 errorDisplay "subject-error" "Subject is required",
                 errorDisplay "message-error" "Message is required"] }

/-- A layout in which the ranges of `about` and `projects` overlap around offset 450. -/
def overlapPage : Page :=
  { pageWith (formWith "" "" "" "") with
    document := [sectionElement "about" 0 600, sectionElement "projects" 500 600,
                 sectionElement "contact" 1100 600],
    pageYOffset := 450 }

/-- A page with the mobile menu open. -/
def menuOpenPage : Page :=
  { pageWith (formWith "" "" "" "") with
    isMenuOpen := true, hamburger := ["active"], navMenu := ["active"] }

end Portfolio

/-! ## Lemmas: the matcher -/

namespace Portfolio

namespace Regex

theorem fullMatch_empty (s : List Char) : fullMatch empty s = false := by
  induction s with
  | nil => rfl
  | cons c cs ih => simpa [fullMatch, deriv] using ih

theorem fullMatch_eps (s : List Char) : fullMatch eps s = true ↔ s = [] := by
  cases s with
  | nil => simp [fullMatch, nullable]
  | cons c cs => simp [fullMatch, deriv, fullMatch_empty]

theorem fullMatch_cls (p : Char → Bool) (s : List Char) :
    fullMatch (cls p) s = true ↔ ∃ c, s = [c] ∧ p c = true := by
  cases s with
  | nil => simp [fullMatch, nullable]
  | cons c cs =>
    simp only [fullMatch, deriv]
    by_cases h : p c = true
    · rw [if_pos h, fullMatch_eps]
      constructor
      · rintro rfl
        exact ⟨c, rfl, h⟩
      · rintro ⟨d, hd, _⟩
        exact (List.cons.inj hd).2
    · rw [if_neg h, fullMatch_empty]
      constructor
      · intro h'
        exact absurd h' (by simp)
      · rintro ⟨d, hd, hp⟩
        rw [← (List.cons.inj hd).1] at hp
        exact absurd hp h

theorem fullMatch_alt (a b : Regex) (s : List Char) :
    fullMatch (alt a b) s = (fullMatch a s || fullMatch b s) := by
  induction s generalizing a b with
  | nil => rfl
  | cons c cs ih => simp only [fullMatch, deriv]; exact ih _ _

theorem fullMatch_seq (a b : Regex) (s : List Char) :
    fullMatch (seq a b) s = true ↔
      ∃ t u, s = t ++ u ∧ fullMatch a t = true ∧ fullMatch b u = true := by
  induction s generalizing a with
  | nil =>
    simp only [fullMatch, nullable, Bool.and_eq_true]
    constructor
    · rintro ⟨ha, hb⟩
      exact ⟨[], [], rfl, ha, hb⟩
    · rintro ⟨t, u, h, ha, hb⟩
      have ht : t = [] := (List.append_eq_nil.mp h.symm).1
      have hu : u = [] := (List.append_eq_nil.mp h.symm).2
      subst ht; subst hu
      exact ⟨ha, hb⟩
  | cons c cs ih =>
    have key : fullMatch (seq a b) (c :: cs) = true ↔
        fullMatch (seq (deriv a c) b) cs = true ∨
          (nullable a = true ∧ fullMatch (deriv b c) cs = true) := by
      simp only [fullMatch, deriv]
      by_cases hn : nullable a = true
      · simp [hn, fullMatch_alt]
      · simp [hn]
    rw [key, ih]
    constructor
    · rintro (⟨t, u, h, ha, hb⟩ | ⟨hn, hb⟩)
      · exact ⟨c :: t, u, by simp [h], ha, hb⟩
      · exact ⟨[], c :: cs, rfl, hn, hb⟩
    · rintro ⟨t, u, h, ha, hb⟩
      cases t with
      | nil =>
        right
        simp only [List.nil_append] at h
        subst h
        exact ⟨ha, hb⟩
      | cons d t =>
        left
        simp only [List.cons_append, List.cons.injEq] at h
        obtain ⟨hd, hcs⟩ := h
        subst hd
        exact ⟨t, u, hcs, ha, hb⟩

theorem fullMatch_star_cls (p : Char → Bool) (s : List Char) :
    fullMatch (star (cls p)) s = true ↔ ∀ c ∈ s, p c = true := by
  induction s with
  | nil => simp [fullMatch, nullable]
  | cons c cs ih =>
    have step : fullMatch (star (cls p)) (c :: cs) =
        fullMatch (seq (if p c then eps else empty) (star (cls p))) cs := rfl
    rw [step, fullMatch_seq]
    constructor
    · rintro ⟨t, u, h, ht, hu⟩
      by_cases hp : p c = true
      · simp only [hp, if_true, fullMatch_eps] at ht
        subst ht
        simp only [List.nil_append] at h
        subst h
        intro x hx
        rcases List.mem_cons.mp hx with rfl | hx
        · exact hp
        · exact ih.mp hu x hx
      · simp [hp, fullMatch_empty] at ht
    · intro h
      have hp : p c = true := h c (List.mem_cons_self _ _)
      refine ⟨[], cs, rfl, ?_, ih.mpr fun x hx => h x (List.mem_cons_of_mem _ hx)⟩
      simp [hp, fullMatch, nullable]

theorem fullMatch_plus_cls (p : Char → Bool) (s : List Char) :
    fullMatch (plus (cls p)) s = true ↔ s ≠ [] ∧ ∀ c ∈ s, p c = true := by
  unfold plus
  rw [fullMatch_seq]
  constructor
  · rintro ⟨t, u, h, ht, hu⟩
    obtain ⟨c, rfl, hc⟩ := (fullMatch_cls p t).mp ht
    subst h
    refine ⟨by simp, ?_⟩
    intro x hx
    rcases List.mem_cons.mp hx with rfl | hx
    · exact hc
    · exact (fullMatch_star_cls p u).mp hu x hx
  · rintro ⟨hne, h⟩
    cases s with
    | nil => exact absurd rfl hne
    | cons c cs =>
      exact ⟨[c], cs, rfl, (fullMatch_cls p [c]).mpr ⟨c, rfl, h c (List.mem_cons_self _ _)⟩,
        (fullMatch_star_cls p cs).mpr fun x hx => h x (List.mem_cons_of_mem _ hx)⟩

end Regex

/-- The language of `emailRegex`, on character lists. -/
theorem emailRegex_fullMatch (s : List Char) :
    emailRegex.fullMatch s = true ↔
      ∃ l d t : List Char, s = l ++ '@' :: (d ++ '.' :: t) ∧
        (l ≠ [] ∧ ∀ c ∈ l, notSpaceAt c = true) ∧
        (d ≠ [] ∧ ∀ c ∈ d, notSpaceAt c = true) ∧
        (t ≠ [] ∧ ∀ c ∈ t, notSpaceAt c = true) := by
  unfold emailRegex
  simp only [Regex.fullMatch_seq, Regex.fullMatch_plus_cls, Regex.fullMatch_cls]
  constructor
  · rintro ⟨l, r1, rfl, hl, a, r2, rfl, ⟨ca, rfl, hca⟩, d, r3, rfl, hd, dt, t, rfl,
      ⟨cd, rfl, hcd⟩, ht⟩
    have h1 : ca = '@' := by simpa using hca
    have h2 : cd = '.' := by simpa using hcd
    subst h1; subst h2
    exact ⟨l, d, t, by simp, hl, hd, ht⟩
  · rintro ⟨l, d, t, rfl, hl, hd, ht⟩
    exact ⟨l, _, rfl, hl, ['@'], _, rfl, ⟨'@', rfl, by simp⟩, d, _, rfl, hd, ['.'], t, rfl,
      ⟨'.', rfl, by simp⟩, ht⟩

theorem notSpaceAt_iff (c : Char) :
    notSpaceAt c = true ↔ isJSWhiteSpace c = false ∧ c ≠ '@' := by
  simp [notSpaceAt]

end Portfolio

/-! ## Lemmas: the form validator -/

namespace Portfolio

theorem classContains_classAdd (cl : List String) (t : String) :
    classContains (classAdd cl t) t = true := by
  unfold classAdd
  by_cases h : classContains cl t = true
  · rw [if_pos h]; exact h
  · rw [if_neg h]; simp [classContains]

theorem classContains_classRemove (cl : List String) (t : String) :
    classContains (classRemove cl t) t = false := by
  simp [classContains, classRemove]

theorem find?_id_cons_pos (el : Element) (rest : List Element) (id' : String)
    (h : el.id = id') : (el :: rest).find? (fun e => e.id == id') = some el := by
  simp [List.find?, h]

theorem find?_id_cons_neg (el : Element) (rest : List Element) (id' : String)
    (h : ¬ el.id = id') :
    (el :: rest).find? (fun e => e.id == id') = rest.find? (fun e => e.id == id') := by
  have e : (el.id == id') = false := by simpa using h
  simp only [List.find?, e]

theorem find?_setTextContent (doc : List Element) (id id' text : String) :
    (setTextContent doc id text).find? (fun el => el.id == id') =
      if id' = id then
        (doc.find? (fun el => el.id == id')).map fun el => { el with textContent := text }
      else doc.find? (fun el => el.id == id') := by
  induction doc with
  | nil => simp [setTextContent]
  | cons el rest ih =>
    unfold setTextContent
    by_cases h1 : el.id = id
    · have e1 : (el.id == id) = true := by simpa using h1
      rw [if_pos e1]
      by_cases h2 : id' = id
      · have e2 : el.id = id' := h1.trans h2.symm
        rw [if_pos h2, find?_id_cons_pos _ _ _ e2,
          find?_id_cons_pos { el with textContent := text } _ _ e2]
        rfl
      · have e2 : ¬ el.id = id' := fun h => h2 (h.symm.trans h1)
        rw [if_neg h2, find?_id_cons_neg _ _ _ e2,
          find?_id_cons_neg { el with textContent := text } _ _ e2]
    · have e1 : ¬ (el.id == id) = true := by simpa using h1
      rw [if_neg e1]
      by_cases h2 : el.id = id'
      · have h3 : ¬ id' = id := fun h => h1 (h2.trans h)
        rw [if_neg h3, find?_id_cons_pos _ _ _ h2, find?_id_cons_pos _ _ _ h2]
      · rw [find?_id_cons_neg _ _ _ h2, find?_id_cons_neg _ _ _ h2]
        exact ih

theorem getElementById_setTextContent (doc : List Element) (id id' text : String) :
    getElementById (setTextContent doc id text) id' =
      if id' = id then (getElementById doc id').map fun el => { el with textContent := text }
      else getElementById doc id' := by
  unfold getElementById
  by_cases he : id'.data.isEmpty = true
  · simp [he]
  · rw [if_neg he, if_neg he]
    exact find?_setTextContent doc id id' text

theorem find?_clear (doc : List Element) (id : String) :
    (doc.map fun el =>
        if classContains el.classList "error-message" then { el with textContent := "" }
        else el).find? (fun el => el.id == id) =
      (doc.find? (fun el => el.id == id)).map fun el =>
        if classContains el.classList "error-message" then { el with textContent := "" }
        else el := by
  induction doc with
  | nil => rfl
  | cons el rest ih =>
    rw [List.map_cons]
    have hid : (if classContains el.classList "error-message" then
        { el with textContent := "" } else el).id = el.id := by
      by_cases hc : classContains el.classList "error-message" = true
      · rw [if_pos hc]
      · rw [if_neg hc]
    by_cases h1 : el.id = id
    · rw [find?_id_cons_pos _ _ _ h1, find?_id_cons_pos _ _ _ (hid.trans h1)]
      rfl
    · rw [find?_id_cons_neg _ _ _ h1, find?_id_cons_neg _ _ _ (fun h => h1 (hid.symm.trans h))]
      exact ih

theorem getElementById_clear (doc : List Element) (id : String) :
    getElementById (doc.map fun el =>
        if classContains el.classList "error-message" then { el with textContent := "" }
        else el) id =
      (getElementById doc id).map fun el =>
        if classContains el.classList "error-message" then { el with textContent := "" }
        else el := by
  unfold getElementById
  by_cases he : id.data.isEmpty = true
  · simp [he]
  · rw [if_neg he, if_neg he]
    exact find?_clear doc id

theorem textOf_clearFormErrors (p : Page) (id : String) (h : isErrorDisplay p id = true) :
    textOf (clearFormErrors p) id = some "" := by
  unfold isErrorDisplay at h
  unfold textOf clearFormErrors
  simp only [getElementById_clear]
  cases hg : getElementById p.document id with
  | none => simp [hg] at h
  | some el =>
    simp only [hg] at h
    simp [h]

theorem showError_eq (id m : String) (p : Page) :
    showError id m p = { p with document := (showError id m p).document } := by
  unfold showError
  cases getElementById p.document id <;> rfl

theorem textOf_showError (id m id' : String) (p : Page) :
    textOf (showError id m p) id' =
      if id' = id then (textOf p id').map fun _ => m else textOf p id' := by
  unfold showError textOf
  cases hg : getElementById p.document id with
  | none =>
    by_cases h : id' = id
    · subst h; simp [hg]
    · simp [h]
  | some el =>
    simp only [getElementById_setTextContent]
    by_cases h : id' = id
    · simp only [h, if_true, Option.map_map]; rfl
    · simp [h]

theorem report_eq (g : Field) (r : Option String) (p : Page) :
    report g r p = { p with document := (report g r p).document } := by
  cases r with
  | none => rfl
  | some m => exact showError_eq _ _ _

theorem textOf_report (g : Field) (r : Option String) (p : Page) (id' : String) :
    textOf (report g r p) id' =
      if id' = g.errorId then (textOf p id').map fun t => r.getD t else textOf p id' := by
  cases r with
  | none =>
    by_cases h : id' = g.errorId
    · simp [report, h]
    · simp [report, h]
  | some m =>
    simp only [report, textOf_showError, Option.getD_some]

theorem handleFormSubmit_eq (p : Page) :
    handleFormSubmit p =
      if allPass p.contactForm then
        submitForm (trimmedValue p.contactForm.name) (trimmedValue p.contactForm.email)
          (trimmedValue p.contactForm.subject) (trimmedValue p.contactForm.message) (validated p)
      else validated p := by
  unfold handleFormSubmit validated allPass ruleOn
  simp only [show (clearFormErrors p).contactForm = p.contactForm from rfl, Field.control]
  generalize trimmedValue p.contactForm.name = n
  generalize trimmedValue p.contactForm.email = e
  generalize trimmedValue p.contactForm.subject = s
  generalize trimmedValue p.contactForm.message = m
  generalize clearFormErrors p = q
  cases hn : truthy n <;> cases he : truthy e <;> cases hs : truthy s <;>
    cases hm : truthy m <;> cases hv : isValidEmail (e.getD "") <;>
    by_cases hl : jsLength (m.getD "") < 10 <;>
    simp [rule, report, hn, he, hs, hm, hv, hl, Field.errorId]

theorem report_console (g : Field) (r : Option String) (p : Page) :
    (report g r p).console = p.console := by rw [report_eq]

theorem report_timers (g : Field) (r : Option String) (p : Page) :
    (report g r p).timers = p.timers := by rw [report_eq]

theorem report_contactForm (g : Field) (r : Option String) (p : Page) :
    (report g r p).contactForm = p.contactForm := by rw [report_eq]

theorem report_successMessage (g : Field) (r : Option String) (p : Page) :
    (report g r p).successMessage = p.successMessage := by rw [report_eq]

theorem validated_console (p : Page) : (validated p).console = p.console := by
  simp only [validated, report_console]; rfl

theorem validated_timers (p : Page) : (validated p).timers = p.timers := by
  simp only [validated, report_timers]; rfl

theorem validated_contactForm (p : Page) : (validated p).contactForm = p.contactForm := by
  simp only [validated, report_contactForm]; rfl

theorem validated_successMessage (p : Page) :
    (validated p).successMessage = classRemove p.successMessage "show" := by
  simp only [validated, report_successMessage]; rfl

theorem textOf_validated (p : Page) (hd : ErrorDisplaysPresent p) (g : Field) :
    textOf (validated p) g.errorId = some ((ruleOn p.contactForm g).getD "") := by
  have h1 : textOf (clearFormErrors p) "name-error" = some "" :=
    textOf_clearFormErrors p _ (hd .name)
  have h2 : textOf (clearFormErrors p) "email-error" = some "" :=
    textOf_clearFormErrors p _ (hd .email)
  have h3 : textOf (clearFormErrors p) "subject-error" = some "" :=
    textOf_clearFormErrors p _ (hd .subject)
  have h4 : textOf (clearFormErrors p) "message-error" = some "" :=
    textOf_clearFormErrors p _ (hd .message)
  unfold validated
  simp only [textOf_report]
  cases g <;> simp [Field.errorId, h1, h2, h3, h4]

theorem textOf_handleFormSubmit (p : Page) (id : String) :
    textOf (handleFormSubmit p) id = textOf (validated p) id := by
  rw [handleFormSubmit_eq]
  by_cases h : allPass p.contactForm = true
  · rw [if_pos h]; rfl
  · rw [if_neg h]

theorem console_handleFormSubmit (p : Page) :
    (handleFormSubmit p).console =
      if allPass p.contactForm then
        p.console ++ [{ name := trimmedValue p.contactForm.name,
                        email := trimmedValue p.contactForm.email,
                        subject := trimmedValue p.contactForm.subject,
                        message := trimmedValue p.contactForm.message }]
      else p.console := by
  rw [handleFormSubmit_eq]
  by_cases h : allPass p.contactForm = true
  · rw [if_pos h, if_pos h]
    simp only [submitForm, validated_console]
  · rw [if_neg h, if_neg h, validated_console]

theorem submitInvoked_eq (p : Page) : submitInvoked p = allPass p.contactForm := by
  unfold submitInvoked
  rw [console_handleFormSubmit]
  by_cases h : allPass p.contactForm = true
  · simp [h]
  · simp [h]

theorem successShown_handleFormSubmit (p : Page) :
    successShown (handleFormSubmit p) = allPass p.contactForm := by
  rw [handleFormSubmit_eq]
  by_cases h : allPass p.contactForm = true
  · rw [if_pos h, h]
    exact classContains_classAdd _ _
  · rw [if_neg h]
    unfold successShown
    rw [validated_successMessage, classContains_classRemove]
    simpa using h

theorem rule_eq_none_iff (g : Field) (v : Option String) :
    rule g v = none ↔ Field.validValue g v = true := by
  cases g <;> simp only [rule, Field.validValue] <;> cases truthy v <;> simp

theorem allPass_iff (f : ContactForm) : allPass f = true ↔ ∀ g, Field.valid f g = true := by
  unfold allPass Field.valid
  simp only [Bool.and_eq_true, Option.isNone_iff_eq_none, ruleOn, rule_eq_none_iff]
  constructor
  · rintro ⟨⟨⟨h1, h2⟩, h3⟩, h4⟩ g
    cases g <;> assumption
  · intro h
    exact ⟨⟨⟨h .name, h .email⟩, h .subject⟩, h .message⟩

theorem rule_of_falsy (g : Field) (v : Option String) (h : truthy v = false) :
    rule g v = some g.requiredMessage := by
  cases g <;> simp [rule, h, Field.requiredMessage]

theorem rule_cases (g : Field) (v : Option String) :
    rule g v = none ∨ rule g v = some g.requiredMessage ∨
      (rule g v = g.formatMessage ∧ g.formatMessage ≠ none) := by
  by_cases ht : truthy v = true
  · cases g
    · left; simp [rule, ht]
    · by_cases hv : isValidEmail (v.getD "") = true
      · left; simp [rule, ht, hv]
      · right; right; simp [rule, ht, hv, Field.formatMessage]
    · left; simp [rule, ht]
    · by_cases hl : jsLength (v.getD "") < 10
      · right; right; simp [rule, ht, hl, Field.formatMessage]
      · left; simp [rule, ht, hl]
  · right; left
    exact rule_of_falsy g v (by simpa using ht)

theorem rule_getD_eq_empty (g : Field) (v : Option String) :
    (rule g v).getD "" = "" ↔ rule g v = none := by
  constructor
  · intro h
    rcases rule_cases g v with h0 | h1 | ⟨h2, _⟩
    · exact h0
    · rw [h1] at h
      cases g <;> exact absurd h (by decide)
    · rw [h2] at h
      cases g <;> first | exact absurd h (by decide) | (rw [h2]; rfl)
  · intro h
    rw [h]; rfl

theorem textOf_handleFormSubmit_eq (p : Page) (hd : ErrorDisplaysPresent p) (g : Field) :
    textOf (handleFormSubmit p) g.errorId = some ((ruleOn p.contactForm g).getD "") := by
  rw [textOf_handleFormSubmit, textOf_validated p hd]

theorem allPass_iff_texts (p : Page) (hd : ErrorDisplaysPresent p) :
    allPass p.contactForm = true ↔
      ∀ g : Field, textOf (handleFormSubmit p) g.errorId = some "" := by
  simp only [textOf_handleFormSubmit_eq p hd, Option.some.injEq, ruleOn, rule_getD_eq_empty,
    allPass_iff, Field.valid, rule_eq_none_iff]

theorem errorId_injective (g h : Field) (e : g.errorId = h.errorId) : g = h := by
  cases g <;> cases h <;> first | rfl | (exact absurd e (by decide))

end Portfolio

/-! ## Theorems -/

namespace Portfolio

/-- C2: for every string `s`, `isValidEmail s` is true exactly when `s` is
`l ++ "@" ++ d ++ "." ++ t` with `l`, `d`, `t` non-empty and free of white space
and of `@`; `"a@b.co"` is accepted and `"a@b"`, `"a@.co"`, `"ab.co"`, `""` are
rejected. -/
theorem isValidEmail_iff_local_at_domain_dot_tld :
    (∀ s : String, isValidEmail s = true ↔
      ∃ l d t : String, s = l ++ "@" ++ d ++ "." ++ t ∧
        l ≠ "" ∧ d ≠ "" ∧ t ≠ "" ∧
        (∀ c ∈ l.data ++ d.data ++ t.data, isJSWhiteSpace c = false ∧ c ≠ '@')) ∧
    isValidEmail "a@b.co" = true ∧ isValidEmail "a@b" = false ∧
    isValidEmail "a@.co" = false ∧ isValidEmail "ab.co" = false ∧
    isValidEmail "" = false := by
  refine ⟨?_, by decide, by decide, by decide, by decide, by decide⟩
  intro s
  unfold isValidEmail Regex.test
  rw [emailRegex_fullMatch]
  constructor
  · rintro ⟨l, d, t, hs, ⟨hl, hl'⟩, ⟨hd, hd'⟩, ⟨ht, ht'⟩⟩
    refine ⟨⟨l⟩, ⟨d⟩, ⟨t⟩, ?_, ?_, ?_, ?_, ?_⟩
    · apply String.ext
      simp [hs, String.data_append]
    · intro h; exact hl (congrArg String.data h)
    · intro h; exact hd (congrArg String.data h)
    · intro h; exact ht (congrArg String.data h)
    · intro c hc
      simp only [List.mem_append] at hc
      rcases hc with (hc | hc) | hc
      · exact (notSpaceAt_iff c).mp (hl' c hc)
      · exact (notSpaceAt_iff c).mp (hd' c hc)
      · exact (notSpaceAt_iff c).mp (ht' c hc)
  · rintro ⟨l, d, t, hs, hl, hd, ht, hall⟩
    refine ⟨l.data, d.data, t.data, ?_, ⟨?_, ?_⟩, ⟨?_, ?_⟩, ⟨?_, ?_⟩⟩
    · rw [hs]; simp [String.data_append]
    · intro h; exact hl (String.ext h)
    · intro c hc; exact (notSpaceAt_iff c).mpr (hall c (by simp [hc]))
    · intro h; exact hd (String.ext h)
    · intro c hc; exact (notSpaceAt_iff c).mpr (hall c (by simp [hc]))
    · intro h; exact ht (String.ext h)
    · intro c hc; exact (notSpaceAt_iff c).mpr (hall c (by simp [hc]))

/-- C2 at `a@b.co`: the string is accepted and splits as `a`, `b`, `co`. -/
theorem isValidEmail_iff_local_at_domain_dot_tld_witness :
    isValidEmail "a@b.co" = true ∧
    ∃ l d t : String, "a@b.co" = l ++ "@" ++ d ++ "." ++ t ∧
      l ≠ "" ∧ d ≠ "" ∧ t ≠ "" ∧
      (∀ c ∈ l.data ++ d.data ++ t.data, isJSWhiteSpace c = false ∧ c ≠ '@') :=
  ⟨by decide, (isValidEmail_iff_local_at_domain_dot_tld.1 "a@b.co").mp (by decide)⟩

/-- C1: when the four error displays are present, one field is empty (or absent)
after trimming and the other three fields are valid, `handleFormSubmit` shows the
"required" message on that field's display, leaves the other three displays empty,
and does not reach `submitForm`: the call amounts to one `showError` after
`clearFormErrors`. -/
theorem empty_field_yields_single_error (p : Page) (hd : ErrorDisplaysPresent p) (g : Field)
    (hempty : truthy (trimmedValue (g.control p.contactForm)) = false)
    (hothers : ∀ k : Field, k ≠ g → Field.valid p.contactForm k = true) :
    (∀ k : Field, textOf (handleFormSubmit p) k.errorId =
        some (if k = g then g.requiredMessage else "")) ∧
    submitInvoked p = false ∧
    handleFormSubmit p = showError g.errorId g.requiredMessage (clearFormErrors p) := by
  have hg : ruleOn p.contactForm g = some g.requiredMessage := rule_of_falsy g _ hempty
  have hk : ∀ k : Field, k ≠ g → ruleOn p.contactForm k = none := fun k hne =>
    (rule_eq_none_iff k _).mpr (hothers k hne)
  have hfail : allPass p.contactForm = false := by
    cases h : allPass p.contactForm with
    | false => rfl
    | true =>
      have h' := (allPass_iff p.contactForm).mp h g
      rw [Field.valid, ← rule_eq_none_iff] at h'
      rw [ruleOn] at hg
      rw [hg] at h'
      exact absurd h' (by simp)
  refine ⟨?_, ?_, ?_⟩
  · intro k
    rw [textOf_handleFormSubmit_eq p hd]
    by_cases hkg : k = g
    · subst hkg
      rw [hg, if_pos rfl]; rfl
    · rw [hk k hkg, if_neg hkg]; rfl
  · rw [submitInvoked_eq, hfail]
  · rw [handleFormSubmit_eq, hfail]
    simp only [Bool.false_eq_true, if_false, validated]
    cases g
    · rw [hg, hk .email (by decide), hk .subject (by decide), hk .message (by decide)]; rfl
    · rw [hg, hk .name (by decide), hk .subject (by decide), hk .message (by decide)]; rfl
    · rw [hg, hk .name (by decide), hk .email (by decide), hk .message (by decide)]; rfl
    · rw [hg, hk .name (by decide), hk .email (by decide), hk .subject (by decide)]; rfl

/-- C1 at a form with an empty name and valid email, subject and message. -/
theorem empty_field_yields_single_error_witness :
    textOf (handleFormSubmit (pageWith (formWith "  " "a@b.co" "S" "1234567890")))
        "name-error" = some "Name is required" ∧
    textOf (handleFormSubmit (pageWith (formWith "  " "a@b.co" "S" "1234567890")))
        "email-error" = some "" ∧
    submitInvoked (pageWith (formWith "  " "a@b.co" "S" "1234567890")) = false :=
  have h := empty_field_yields_single_error
    (pageWith (formWith "  " "a@b.co" "S" "1234567890"))
    (fun g => by cases g <;> rfl) Field.name (by decide)
    (fun k hk => by cases k <;> first | exact absurd rfl hk | decide)
  ⟨h.1 Field.name, h.1 Field.email, h.2.1⟩

/-- C3: with the error displays present and name, email and subject valid, a trimmed
message of exactly 9 code units gets the text "Message must be at least 10
characters long" on the message display and `submitForm` is not reached; a trimmed
message of exactly 10 code units leaves all four displays empty and `submitForm` is
reached; and a non-empty trimmed message leads to submission exactly when its length
is at least 10. -/
theorem message_length_boundary (p : Page) (hd : ErrorDisplaysPresent p)
    (hn : Field.valid p.contactForm .name = true)
    (he : Field.valid p.contactForm .email = true)
    (hs : Field.valid p.contactForm .subject = true)
    (m : String) (hm : trimmedValue p.contactForm.message = some m) :
    (jsLength m = 9 →
      textOf (handleFormSubmit p) "message-error" =
          some "Message must be at least 10 characters long" ∧
        submitInvoked p = false) ∧
    (jsLength m = 10 →
      (∀ k : Field, textOf (handleFormSubmit p) k.errorId = some "") ∧
        submitInvoked p = true) ∧
    (m ≠ "" → (submitInvoked p = true ↔ 10 ≤ jsLength m)) := by
  have hpass : 10 ≤ jsLength m → m ≠ "" → allPass p.contactForm = true := by
    intro hlen hne
    rw [allPass_iff]
    intro g
    cases g
    · exact hn
    · exact he
    · exact hs
    · have hne' : m.data ≠ [] := fun h => hne (String.ext h)
      simp [Field.valid, Field.validValue, Field.control, hm, truthy, hlen, hne']
  have hfail : jsLength m < 10 → allPass p.contactForm = false := by
    intro hlen
    cases h : allPass p.contactForm with
    | false => rfl
    | true =>
      have h' := (allPass_iff p.contactForm).mp h .message
      simp [Field.valid, Field.validValue, Field.control, hm] at h'
      omega
  have hnonempty : 0 < jsLength m → m ≠ "" := by
    intro h0 h
    rw [h] at h0
    exact absurd h0 (by decide)
  refine ⟨?_, ?_, ?_⟩
  · intro h9
    constructor
    · have hr : ruleOn p.contactForm .message =
          some "Message must be at least 10 characters long" := by
        have hne' : m.data ≠ [] := fun h => hnonempty (by omega) (String.ext h)
        simp [ruleOn, rule, Field.control, hm, truthy, h9, hne']
      have := textOf_handleFormSubmit_eq p hd .message
      rw [hr] at this
      exact this
    · rw [submitInvoked_eq]
      exact hfail (by omega)
  · intro h10
    have hp := hpass (by omega) (hnonempty (by omega))
    exact ⟨(allPass_iff_texts p hd).mp hp, by rw [submitInvoked_eq]; exact hp⟩
  · intro hne
    rw [submitInvoked_eq]
    constructor
    · intro hp
      by_contra hlt
      rw [hfail (by omega)] at hp
      exact absurd hp (by simp)
    · intro hlen
      exact hpass hlen hne

/-- C3 at messages of 9 and of 10 characters. -/
theorem message_length_boundary_witness :
    (textOf (handleFormSubmit (pageWith (formWith "A" "a@b.co" "S" " 123456789 ")))
        "message-error" = some "Message must be at least 10 characters long" ∧
      submitInvoked (pageWith (formWith "A" "a@b.co" "S" " 123456789 ")) = false) ∧
    submitInvoked (pageWith (formWith "A" "a@b.co" "S" "1234567890")) = true :=
  ⟨(message_length_boundary (pageWith (formWith "A" "a@b.co" "S" " 123456789 "))
      (fun g => by cases g <;> rfl) (by decide) (by decide) (by decide) "123456789"
      (by decide)).1 (by decide),
   ((message_length_boundary (pageWith (formWith "A" "a@b.co" "S" "1234567890"))
      (fun g => by cases g <;> rfl) (by decide) (by decide) (by decide) "1234567890"
      (by decide)).2.1 (by decide)).2⟩

/-- C4: with the error displays present, the text shown for a field after
`handleFormSubmit` depends on that field's trimmed value only (two pages that agree
on it show the same text, whatever their other fields and earlier displays); each
display holds either nothing or one of the field's messages; `submitForm` is reached
exactly when all four displays are empty; and a form whose four fields are all empty
shows the four "required" messages together. -/
theorem field_rules_independent (p q : Page) (hp : ErrorDisplaysPresent p)
    (hq : ErrorDisplaysPresent q) :
    (∀ g : Field,
      trimmedValue (g.control p.contactForm) = trimmedValue (g.control q.contactForm) →
      textOf (handleFormSubmit p) g.errorId = textOf (handleFormSubmit q) g.errorId) ∧
    (∀ g : Field, ∃ t : String, textOf (handleFormSubmit p) g.errorId = some t ∧
      (t = "" ∨ t = g.requiredMessage ∨ g.formatMessage = some t)) ∧
    (submitInvoked p = true ↔ ∀ g : Field, textOf (handleFormSubmit p) g.errorId = some "") ∧
    ((∀ g : Field, truthy (trimmedValue (g.control p.contactForm)) = false) →
      ∀ g : Field, textOf (handleFormSubmit p) g.errorId = some g.requiredMessage) := by
  refine ⟨?_, ?_, ?_, ?_⟩
  · intro g hg
    rw [textOf_handleFormSubmit_eq p hp, textOf_handleFormSubmit_eq q hq, ruleOn, ruleOn, hg]
  · intro g
    refine ⟨(ruleOn p.contactForm g).getD "", textOf_handleFormSubmit_eq p hp g, ?_⟩
    rcases rule_cases g (trimmedValue (g.control p.contactForm)) with h | h | ⟨h, hne⟩
    · left; rw [ruleOn, h]; rfl
    · right; left; rw [ruleOn, h]; rfl
    · right; right
      rw [ruleOn, h]
      cases hf : g.formatMessage with
      | none => exact absurd hf hne
      | some t => rfl
  · rw [submitInvoked_eq]
    exact allPass_iff_texts p hp
  · intro hall g
    rw [textOf_handleFormSubmit_eq p hp, ruleOn, rule_of_falsy g _ (hall g)]
    rfl

/-- C4 at a form whose four fields are blank, against a form with only the name blank. -/
theorem field_rules_independent_witness :
    textOf (handleFormSubmit (pageWith (formWith "" " " "" "\n"))) "name-error" =
      textOf (handleFormSubmit (pageWith (formWith " " "a@b.co" "S" "1234567890")))
        "name-error" ∧
    (∀ g : Field, textOf (handleFormSubmit (pageWith (formWith "" " " "" "\n"))) g.errorId =
      some g.requiredMessage) :=
  have h := field_rules_independent (pageWith (formWith "" " " "" "\n"))
    (pageWith (formWith " " "a@b.co" "S" "1234567890"))
    (fun g => by cases g <;> rfl) (fun g => by cases g <;> rfl)
  ⟨h.1 Field.name (by decide), h.2.2.2 (fun g => by cases g <;> decide)⟩

/-- C8: for a fully valid form whose controls have empty default values,
`handleFormSubmit` leaves the four controls empty, puts the success indicator in the
shown state and schedules exactly one callback, with delay 5000, whose execution puts
the indicator in the hidden state. -/
theorem valid_submission_resets_and_schedules_hide (p : Page)
    (hv : ∀ g : Field, Field.valid p.contactForm g = true)
    (hdef : ∀ (g : Field) (c : FormControl), g.control p.contactForm = some c →
      c.defaultValue = "") :
    (∀ g : Field, (g.control (handleFormSubmit p).contactForm).map (fun c => c.value) =
      some "") ∧
    successShown (handleFormSubmit p) = true ∧
    (handleFormSubmit p).timers =
      p.timers ++ [{ callback := Callback.hideSuccessMessage, delay := 5000 }] ∧
    successShown (Callback.hideSuccessMessage.run (handleFormSubmit p)) = false ∧
    submitInvoked p = true := by
  have hp : allPass p.contactForm = true := (allPass_iff _).mpr hv
  have hform : (handleFormSubmit p).contactForm = p.contactForm.reset := by
    rw [handleFormSubmit_eq, if_pos hp]
    simp only [submitForm, validated_contactForm]
  refine ⟨?_, ?_, ?_, ?_, ?_⟩
  · intro g
    rw [hform]
    have hsome : ∃ c, g.control p.contactForm = some c := by
      have h := hv g
      cases hc : g.control p.contactForm with
      | some c => exact ⟨c, rfl⟩
      | none =>
        rw [Field.valid, hc] at h
        cases g <;> simp [Field.validValue, trimmedValue, truthy] at h
    obtain ⟨c, hc⟩ := hsome
    have hd := hdef g c hc
    cases g <;> simp only [Field.control] at hc ⊢ <;>
      simp [ContactForm.reset, hc, hd]
  · rw [successShown_handleFormSubmit, hp]
  · rw [handleFormSubmit_eq, if_pos hp]
    simp only [submitForm, validated_timers]
  · exact classContains_classRemove _ _
  · rw [submitInvoked_eq, hp]

/-- C8 at the form `A`, `a@b.co`, `S`, `1234567890`. -/
theorem valid_submission_resets_and_schedules_hide_witness :
    (∀ g : Field,
      (g.control (handleFormSubmit
        (pageWith (formWith "A" "a@b.co" "S" "1234567890"))).contactForm).map
          (fun c => c.value) = some "") ∧
    successShown (handleFormSubmit (pageWith (formWith "A" "a@b.co" "S" "1234567890"))) =
      true ∧
    (handleFormSubmit (pageWith (formWith "A" "a@b.co" "S" "1234567890"))).timers =
      [{ callback := Callback.hideSuccessMessage, delay := 5000 }] :=
  have h := valid_submission_resets_and_schedules_hide
    (pageWith (formWith "A" "a@b.co" "S" "1234567890"))
    (fun g => by cases g <;> decide)
    (fun g c hc => by
      cases g <;> simp only [Field.control, pageWith, formWith, Option.some.injEq] at hc <;>
        rw [← hc])
  ⟨h.1, h.2.1, h.2.2.1⟩

/-- C10: with the error displays present, whatever the displays and the success
indicator showed before, right after `handleFormSubmit` the success indicator is
shown exactly when the four error displays are empty; a submission that reaches
`submitForm` leaves no error text behind, and one that does not leaves the success
indicator hidden. -/
theorem success_and_errors_exclusive (p : Page) (hd : ErrorDisplaysPresent p) :
    (successShown (handleFormSubmit p) = true ↔
      ∀ g : Field, textOf (handleFormSubmit p) g.errorId = some "") ∧
    (submitInvoked p = true →
      ∀ g : Field, textOf (handleFormSubmit p) g.errorId = some "") ∧
    (submitInvoked p = false → successShown (handleFormSubmit p) = false) := by
  refine ⟨?_, ?_, ?_⟩
  · rw [successShown_handleFormSubmit]
    exact allPass_iff_texts p hd
  · intro h
    rw [submitInvoked_eq] at h
    exact (allPass_iff_texts p hd).mp h
  · intro h
    rw [submitInvoked_eq] at h
    rw [successShown_handleFormSubmit, h]

/-- C10 on a page that still shows a success indicator and stale errors: a failed attempt
hides the indicator. -/
theorem success_and_errors_exclusive_witness :
    successShown (stalePage (formWith "A" "a@b" "S" "1234567890")) = true ∧
    successShown (handleFormSubmit (stalePage (formWith "A" "a@b" "S" "1234567890"))) =
      false :=
  ⟨by decide,
   (success_and_errors_exclusive (stalePage (formWith "A" "a@b" "S" "1234567890"))
      (fun g => by cases g <;> rfl)).2.2 (by decide)⟩

end Portfolio

/-! ## Theorems: navigation -/

namespace Portfolio

theorem updateActiveNavLink_currentSection (s : String) (p : Page) :
    (updateActiveNavLink s p).currentSection = s := by
  unfold updateActiveNavLink
  by_cases h : (p.currentSection != s) = true
  · rw [if_pos h]
  · rw [if_neg h]
    simpa using h

theorem updateActiveNavLink_document (s : String) (p : Page) :
    (updateActiveNavLink s p).document = p.document := by
  unfold updateActiveNavLink
  by_cases h : (p.currentSection != s) = true
  · rw [if_pos h]
  · rw [if_neg h]

theorem foldl_sections_currentSection (p : Page) (l : List String) (q : Page)
    (hq : q.document = p.document) :
    (l.foldl (fun p' sectionId =>
      match getElementById p'.document sectionId with
      | some sectionEl =>
          let sectionTop := sectionEl.offsetTop - 100
          let sectionBottom := sectionTop + sectionEl.offsetHeight
          if decide (p.pageYOffset ≥ sectionTop) && decide (p.pageYOffset < sectionBottom) then
            updateActiveNavLink sectionId p'
          else p'
      | none => p') q).currentSection =
      ((l.filter (sectionContainsOffset p)).getLast?).getD q.currentSection := by
  induction l generalizing q with
  | nil => rfl
  | cons a l ih =>
    rw [List.foldl_cons]
    by_cases hm : sectionContainsOffset p a = true
    · have hstep : (match getElementById q.document a with
          | some sectionEl =>
              let sectionTop := sectionEl.offsetTop - 100
              let sectionBottom := sectionTop + sectionEl.offsetHeight
              if decide (p.pageYOffset ≥ sectionTop) && decide (p.pageYOffset < sectionBottom)
              then updateActiveNavLink a q else q
          | none => q) = updateActiveNavLink a q := by
        unfold sectionContainsOffset at hm
        rw [hq]
        cases hg : getElementById p.document a with
        | none => rw [hg] at hm; exact absurd hm (by simp)
        | some el =>
          rw [hg] at hm
          simp only [ge_iff_le]
          rw [if_pos hm]
      rw [hstep, ih _ ((updateActiveNavLink_document a q).trans hq),
        updateActiveNavLink_currentSection, List.filter_cons_of_pos hm, List.getLast?_cons]
      rfl
    · have hstep : (match getElementById q.document a with
          | some sectionEl =>
              let sectionTop := sectionEl.offsetTop - 100
              let sectionBottom := sectionTop + sectionEl.offsetHeight
              if decide (p.pageYOffset ≥ sectionTop) && decide (p.pageYOffset < sectionBottom)
              then updateActiveNavLink a q else q
          | none => q) = q := by
        unfold sectionContainsOffset at hm
        rw [hq]
        cases hg : getElementById p.document a with
        | none => rfl
        | some el =>
          rw [hg] at hm
          simp only [ge_iff_le]
          rw [if_neg hm]
      rw [hstep, ih _ hq, List.filter_cons_of_neg hm]

/-- C5 (as stated) fails: on a layout where the ranges of `about` and `projects` both
contain the offset, the first such section is `about`, yet `updateActiveSection`
leaves `currentSection` at `projects`. -/
theorem first_match_does_not_win :
    sectionContainsOffset overlapPage "about" = true ∧
    sectionContainsOffset overlapPage "projects" = true ∧
    sections.find? (sectionContainsOffset overlapPage) = some "about" ∧
    (updateActiveSection overlapPage).currentSection = "projects" ∧
    (updateActiveSection overlapPage).currentSection ≠ "about" := by
  decide

/-- C5 (amended): after `updateActiveSection`, `currentSection` is the LAST section, in
declared order, whose range contains the scroll offset, and it is unchanged when no
range contains it. -/
theorem updateActiveSection_last_match_wins (p : Page) :
    (updateActiveSection p).currentSection =
      ((sections.filter (sectionContainsOffset p)).getLast?).getD p.currentSection :=
  foldl_sections_currentSection p sections p rfl

/-- C6 (as stated) fails: with the menu open, a click whose `data-section` names no
element closes the menu and removes the `active` markers. -/
theorem unresolved_section_closes_menu :
    getElementById menuOpenPage.document "skills" = none ∧
    menuOpenPage.isMenuOpen = true ∧
    (handleNavClick (some "skills") menuOpenPage).isMenuOpen = false ∧
    (handleNavClick (some "skills") menuOpenPage).hamburger = [] ∧
    (handleNavClick (some "skills") menuOpenPage).navMenu = [] ∧
    handleNavClick (some "skills") menuOpenPage ≠ menuOpenPage := by
  decide

/-- C6 (amended): a click whose `data-section` is absent or empty changes nothing; a
click whose non-empty `data-section` names no element issues no scroll and leaves the
scroll position alone, and it closes the mobile menu when the menu is open (it changes
nothing when the menu is closed). -/
theorem handleNavClick_unknown_section (p : Page) (targetSection : Option String) :
    (truthy targetSection = false → handleNavClick targetSection p = p) ∧
    (∀ s : String, targetSection = some s → s ≠ "" → getElementById p.document s = none →
      (handleNavClick targetSection p).scrollCalls = p.scrollCalls ∧
      (handleNavClick targetSection p).pageYOffset = p.pageYOffset ∧
      handleNavClick targetSection p = (if p.isMenuOpen then toggleMobileMenu p else p) ∧
      (p.isMenuOpen = false → handleNavClick targetSection p = p)) := by
  constructor
  · intro h
    unfold handleNavClick
    rw [h]
    rfl
  · intro s hs hne hnone
    have ht : truthy targetSection = true := by
      rw [hs]
      have : s.data ≠ [] := fun h => hne (String.ext h)
      simp [truthy, this]
    have hscroll : scrollToSection s p = p := by
      unfold scrollToSection
      rw [hnone]
    have hmain : handleNavClick targetSection p =
        (if p.isMenuOpen then toggleMobileMenu p else p) := by
      unfold handleNavClick
      rw [if_pos ht, hs]
      simp only [Option.getD_some, hscroll]
    refine ⟨?_, ?_, hmain, ?_⟩
    · rw [hmain]
      by_cases hm : p.isMenuOpen = true
      · rw [if_pos hm]; rfl
      · rw [if_neg hm]
    · rw [hmain]
      by_cases hm : p.isMenuOpen = true
      · rw [if_pos hm]; rfl
      · rw [if_neg hm]
    · intro hm
      rw [hmain, hm]
      rfl

/-- C6 (amended) on a freshly loaded page and on a page with the menu open. -/
theorem handleNavClick_unknown_section_witness :
    handleNavClick (some "") menuOpenPage = menuOpenPage ∧
    handleNavClick (some "skills") menuOpenPage = toggleMobileMenu menuOpenPage :=
  ⟨(handleNavClick_unknown_section menuOpenPage (some "")).1 (by decide),
   ((handleNavClick_unknown_section menuOpenPage (some "skills")).2 "skills" rfl
      (by decide) (by decide)).2.2.1⟩

end Portfolio

/-! ## Theorems: modal -/

namespace Portfolio

set_option maxRecDepth 100000 in
/-- C9 (as stated) fails: with the second project shown, a click whose target is the
close control, an element of the modal content and not the overlay itself, hides the
modal and sets the body overflow back to `auto`. -/
theorem close_control_click_closes_modal :
    Node.modalClose ≠ Node.modal ∧
    modalShown (handleProjectClick (some "1") (pageWith (formWith "" "" "" ""))) = true ∧
    (handleProjectClick (some "1") (pageWith (formWith "" "" "" ""))).bodyOverflow =
      "hidden" ∧
    modalShown (clickOnModal Node.modalClose
      (handleProjectClick (some "1") (pageWith (formWith "" "" "" "")))) = false ∧
    (clickOnModal Node.modalClose
      (handleProjectClick (some "1") (pageWith (formWith "" "" "" "")))).bodyOverflow =
      "auto" := by
  decide

/-- C9 (amended): for every project, `showProjectModal` followed by an Escape keydown
leaves the modal hidden and the body overflow at `auto` (no longer `hidden`); an
Escape keydown while the modal is not visible changes nothing; a click on the modal
whose target is neither the overlay itself nor on the close control leaves the modal
visible and the page scroll disabled; and a click whose target is the overlay itself or
on the close control hides the modal and sets the body overflow to `auto`. -/
theorem modal_escape_and_content_click (p : Page) (project : Project) (target : Node) :
    (modalShown (keydownListener "Escape" (showProjectModal project p)) = false ∧
      (keydownListener "Escape" (showProjectModal project p)).bodyOverflow = "auto" ∧
      (keydownListener "Escape" (showProjectModal project p)).bodyOverflow ≠ "hidden") ∧
    (modalShown p = false → keydownListener "Escape" p = p) ∧
    (target ≠ Node.modal → target.reachesModalClose = false →
      clickOnModal target (showProjectModal project p) = showProjectModal project p ∧
      modalShown (showProjectModal project p) = true ∧
      (showProjectModal project p).bodyOverflow = "hidden") ∧
    (target = Node.modal ∨ target.reachesModalClose = true →
      modalShown (clickOnModal target (showProjectModal project p)) = false ∧
      (clickOnModal target (showProjectModal project p)).bodyOverflow = "auto") := by
  have hshown : modalShown (showProjectModal project p) = true :=
    classContains_classAdd _ _
  have hesc : keydownListener "Escape" (showProjectModal project p) =
      closeModal (showProjectModal project p) := by
    unfold keydownListener
    unfold modalShown at hshown
    rw [hshown]
    rfl
  have hclosed : ∀ q : Page, modalShown (closeModal q) = false ∧
      (closeModal q).bodyOverflow = "auto" :=
    fun q => ⟨classContains_classRemove _ _, rfl⟩
  refine ⟨⟨?_, ?_, ?_⟩, ?_, ?_, ?_⟩
  · rw [hesc]
    exact (hclosed _).1
  · rw [hesc]; rfl
  · rw [hesc]
    show "auto" ≠ "hidden"
    decide
  · intro h
    unfold keydownListener
    unfold modalShown at h
    rw [h]
    rfl
  · intro h hc
    refine ⟨?_, hshown, rfl⟩
    unfold clickOnModal modalClickListener
    simp only [hc, Bool.false_eq_true, if_false]
    rw [if_neg h]
  · intro h
    unfold clickOnModal modalClickListener modalCloseClickListener
    rcases h with h | h
    · subst h
      simp only [Node.reachesModalClose, Bool.false_eq_true, if_false, if_true]
      exact hclosed _
    · have hne : target ≠ Node.modal := by
        intro h'
        rw [h'] at h
        exact absurd h (by decide)
      simp only [h, if_true]
      rw [if_neg hne]
      exact hclosed _

set_option maxRecDepth 100000 in
/-- C9 (amended) on a freshly loaded page: Escape on the closed page is a no-op, a click
on the modal body keeps the second project shown, and a click inside the close control
hides it. -/
theorem modal_escape_and_content_click_witness :
    keydownListener "Escape" (pageWith (formWith "" "" "" "")) =
      pageWith (formWith "" "" "" "") ∧
    clickOnModal Node.modalBody
        (showProjectModal
          { title := "Blockchain Intrusion Detection System",
            description := "Real-time monitoring system for network security",
            technologies := ["Python", "Flask", "JavaScript", "Security"],
            details := "Implemented a comprehensive security monitoring dashboard with real-time alerts, IP tracking, and audit logging capabilities." }
          (pageWith (formWith "" "" "" ""))) =
      showProjectModal
          { title := "Blockchain Intrusion Detection System",
            description := "Real-time monitoring system for network security",
            technologies := ["Python", "Flask", "JavaScript", "Security"],
            details := "Implemented a comprehensive security monitoring dashboard with real-time alerts, IP tracking, and audit logging capabilities." }
          (pageWith (formWith "" "" "" "")) ∧
    modalShown (clickOnModal (Node.insideModalClose "span")
        (showProjectModal
          { title := "Blockchain Intrusion Detection System",
            description := "Real-time monitoring system for network security",
            technologies := ["Python", "Flask", "JavaScript", "Security"],
            details := "Implemented a comprehensive security monitoring dashboard with real-time alerts, IP tracking, and audit logging capabilities." }
          (pageWith (formWith "" "" "" "")))) = false :=
  ⟨(modal_escape_and_content_click (pageWith (formWith "" "" "" ""))
      { title := "", description := "", technologies := [], details := "" }
      Node.modalBody).2.1 (by decide),
   ((modal_escape_and_content_click (pageWith (formWith "" "" "" ""))
      { title := "Blockchain Intrusion Detection System",
        description := "Real-time monitoring system for network security",
        technologies := ["Python", "Flask", "JavaScript", "Security"],
        details := "Implemented a comprehensive security monitoring dashboard with real-time alerts, IP tracking, and audit logging capabilities." }
      Node.modalBody).2.2.1 (by decide) (by decide)).1,
   ((modal_escape_and_content_click (pageWith (formWith "" "" "" ""))
      { title := "Blockchain Intrusion Detection System",
        description := "Real-time monitoring system for network security",
        technologies := ["Python", "Flask", "JavaScript", "Security"],
        details := "Implemented a comprehensive security monitoring dashboard with real-time alerts, IP tracking, and audit logging capabilities." }
      (Node.insideModalClose "span")).2.2.2 (Or.inr (by decide))).1⟩

set_option maxRecDepth 100000 in
/-- C7: for every index `i` of the catalog (0, 1 or 2), `handleProjectClick` on a
trigger whose `data-project` is the decimal numeral of `i` makes the modal visible with
a body that carries the title, the description and the details of entry `i` and whose
`tech-tag` spans are the technologies of that entry, in order and in the same number.
For index 1 the entry is "Blockchain Intrusion Detection System" with the tags Python,
Flask, JavaScript, Security. -/
theorem project_click_shows_entry (p : Page) :
    (∀ i : Nat, i < 3 → ∃ project : Project, projects.get? i = some project ∧
      modalShown (handleProjectClick (some (Nat.repr i)) p) = true ∧
      containsMarkup (handleProjectClick (some (Nat.repr i)) p).modalBody
        ("<h2 class=\"modal-project-title\">" ++ project.title ++ "</h2>") = true ∧
      containsMarkup (handleProjectClick (some (Nat.repr i)) p).modalBody
        ("<p class=\"modal-project-description\">" ++ project.description ++ "</p>") = true ∧
      containsMarkup (handleProjectClick (some (Nat.repr i)) p).modalBody
        ("<p>" ++ project.details ++ "</p>") = true ∧
      techTagTexts (handleProjectClick (some (Nat.repr i)) p).modalBody =
        project.technologies ∧
      (techTagTexts (handleProjectClick (some (Nat.repr i)) p).modalBody).length =
        project.technologies.length) ∧
    containsMarkup (handleProjectClick (some "1") p).modalBody
      "<h2 class=\"modal-project-title\">Blockchain Intrusion Detection System</h2>" = true ∧
    techTagTexts (handleProjectClick (some "1") p).modalBody =
      ["Python", "Flask", "JavaScript", "Security"] := by
  have h0 : handleProjectClick (some "0") p =
      showProjectModal (projects.get ⟨0, by decide⟩) p := by
    have : projectAt (parseInt (attributeToString (some "0"))) =
        some (projects.get ⟨0, by decide⟩) := by decide
    unfold handleProjectClick
    simp only [this]
  have h1 : handleProjectClick (some "1") p =
      showProjectModal (projects.get ⟨1, by decide⟩) p := by
    have : projectAt (parseInt (attributeToString (some "1"))) =
        some (projects.get ⟨1, by decide⟩) := by decide
    unfold handleProjectClick
    simp only [this]
  have h2 : handleProjectClick (some "2") p =
      showProjectModal (projects.get ⟨2, by decide⟩) p := by
    have : projectAt (parseInt (attributeToString (some "2"))) =
        some (projects.get ⟨2, by decide⟩) := by decide
    unfold handleProjectClick
    simp only [this]
  have hbody : ∀ pr : Project, (showProjectModal pr p).modalBody = modalContent pr :=
    fun _ => rfl
  have hshown : ∀ pr : Project, modalShown (showProjectModal pr p) = true :=
    fun _ => classContains_classAdd _ _
  refine ⟨?_, ?_, ?_⟩
  · intro i hi
    interval_cases i
    · refine ⟨projects.get ⟨0, by decide⟩, rfl, ?_⟩
      rw [show Nat.repr 0 = "0" from by decide, h0, hbody]
      exact ⟨hshown _, by decide, by decide, by decide, by decide, by decide⟩
    · refine ⟨projects.get ⟨1, by decide⟩, rfl, ?_⟩
      rw [show Nat.repr 1 = "1" from by decide, h1, hbody]
      exact ⟨hshown _, by decide, by decide, by decide, by decide, by decide⟩
    · refine ⟨projects.get ⟨2, by decide⟩, rfl, ?_⟩
      rw [show Nat.repr 2 = "2" from by decide, h2, hbody]
      exact ⟨hshown _, by decide, by decide, by decide, by decide, by decide⟩
  · rw [h1, hbody]; decide
  · rw [h1, hbody]; decide

set_option maxRecDepth 100000 in
/-- C7 at index 1 on a freshly loaded page. -/
theorem project_click_shows_entry_witness :
    1 < 3 ∧ ∃ project : Project, projects.get? 1 = some project ∧
      modalShown (handleProjectClick (some (Nat.repr 1))
        (pageWith (formWith "" "" "" ""))) = true ∧
      containsMarkup (handleProjectClick (some (Nat.repr 1))
          (pageWith (formWith "" "" "" ""))).modalBody
        ("<h2 class=\"modal-project-title\">" ++ project.title ++ "</h2>") = true ∧
      containsMarkup (handleProjectClick (some (Nat.repr 1))
          (pageWith (formWith "" "" "" ""))).modalBody
        ("<p class=\"modal-project-description\">" ++ project.description ++ "</p>") = true ∧
      containsMarkup (handleProjectClick (some (Nat.repr 1))
          (pageWith (formWith "" "" "" ""))).modalBody
        ("<p>" ++ project.details ++ "</p>") = true ∧
      techTagTexts (handleProjectClick (some (Nat.repr 1))
          (pageWith (formWith "" "" "" ""))).modalBody = project.technologies ∧
      (techTagTexts (handleProjectClick (some (Nat.repr 1))
          (pageWith (formWith "" "" "" ""))).modalBody).length =
        project.technologies.length :=
  ⟨by decide, (project_click_shows_entry (pageWith (formWith "" "" "" ""))).1 1 (by decide)⟩

end Portfolio
